import Mathlib

/-!
# Verification of the hatui synchronization engine and derivation pipeline

Shallow embedding of the pure core of `src/hatui/helpers.py` and
`src/hatui/dashboard.py` (the request/response correlator, the
subscription delta selector, entity filtering, grouping, icon
resolution, state rendering and state-class mapping), together with
theorems settling the frozen claims about this code.

Modelling conventions:
* Python `str` is `String`; an optional field (`str | None`) is
  `Option String`.  Python truthiness of such a value (`if x:`) is
  `optTruthy`: `None` and the empty string are falsy.
* Python dictionaries with string keys are association lists
  `List (String × α)` built with `dictOfPairs`, which reproduces
  CPython insertion-order semantics: inserting an existing key keeps
  its position and replaces its value, a new key is appended.
  `{**a, **b, **c}` therefore is `dictOfPairs (a ++ b ++ c)` when
  `a`, `b`, `c` are the raw key/value pair lists.
* Python `set(...)` iteration order is unspecified; it is modelled as
  first-occurrence order (`pySetList`).
* Functions that can raise return `Except String α`; the message is
  the message of the raised exception.
* Calls into external libraries (`nerdfont.icons`, `humanize`,
  `datetime` parsing) are parameters: `nerdfont.icons` is an abstract
  lookup `String → Option String`, and each composite humanizing call
  of `render_state` is a field of `RenderExt`.
-/

/-- Python truthiness of a `str | None` value: `None` and `""` are falsy. -/
def optTruthy : Option String → Bool
  | none => false
  | some s => !s.isEmpty

/-- Python `x or y` on `str | None` values: `x` if truthy, else `y`. -/
def pyOr (x y : Option String) : Option String :=
  if optTruthy x then x else y

/-- Python `s.startswith(pre)`. -/
def pyStartswith (s pre : String) : Bool :=
  pre.data.isPrefixOf s.data

/-- Python `s.split(":", 1)[1]`: the part after the first colon; `none`
when there is no colon (where the Python code would raise `IndexError`). -/
def pyAfterColon (s : String) : Option String :=
  if s.data.any (fun c => c == ':') then
    some (String.mk ((s.data.dropWhile (fun c => c != ':')).tail))
  else
    none

/-- Characterwise helper for Python `str.title()`: uppercase a letter that
follows a non-letter, lowercase a letter that follows a letter. -/
def pyTitleAux : List Char → Bool → List Char
  | [], _ => []
  | c :: cs, prevAlpha =>
    (if c.isAlpha then (if prevAlpha then c.toLower else c.toUpper) else c)
      :: pyTitleAux cs c.isAlpha

/-- Python `s.title()` (ASCII case mapping). -/
def pyTitle (s : String) : String :=
  String.mk (pyTitleAux s.data false)

/-- Python-dict insertion into an association list: replace the value in
place when the key exists, append otherwise. -/
def dictInsert (d : List (String × α)) (k : String) (v : α) : List (String × α) :=
  if d.any (fun p => p.1 == k) then
    d.map (fun p => if p.1 == k then (k, v) else p)
  else
    d ++ [(k, v)]

/-- Build a Python dict from key/value pairs in order (comprehension or
`{**a, **b}` merge semantics). -/
def dictOfPairs (ps : List (String × α)) : List (String × α) :=
  ps.foldl (fun d p => dictInsert d p.1 p.2) []

/-- Python `set(l)` materialised in first-occurrence order. -/
def pySetList (l : List String) : List String :=
  l.foldl (fun acc x => if acc.contains x then acc else acc ++ [x]) []

/-- Effectful map over a list in the `Except` monad, evaluating left to
right and stopping at the first raise, as a Python comprehension does. -/
def exceptMapList (f : α → Except ε β) : List α → Except ε (List β)
  | [] => .ok []
  | x :: xs =>
    match f x with
    | .error e => .error e
    | .ok y =>
      match exceptMapList f xs with
      | .error e => .error e
      | .ok ys => .ok (y :: ys)

/-- The fields of an entity-registry `Entity` record used by the code
under verification (`hatui_types.Entity`).  A `str | None` field is
`Option String`; `entity_id` is a required `str`. -/
structure Entity where
  entity_id : String
  area_id : Option String := none
  device_id : Option String := none
  hidden_by : Option String := none
  disabled_by : Option String := none
  entity_category : Option String := none
  platform : Option String := none
  icon : Option String := none
deriving DecidableEq, Repr

/-- The fields of a device-registry `Device` record used by the code
(`hatui_types.Device`): required `id`, optional `area_id` and `name`. -/
structure Device where
  id : String
  area_id : Option String := none
  name : Option String := none
deriving DecidableEq, Repr

/-- The fields of an area-registry `Area` record used by the code
(`hatui_types.Area`): optional `area_id` and `name`. -/
structure Area where
  area_id : Option String := none
  name : Option String := none
deriving DecidableEq, Repr

/-- One resource bundle of the icon catalog (`hatui_types.IconResourceType`):
an optional `default` glyph name and optional per-state glyph names.
Python truthiness of the bundle dict is `iconResourceTruthy`. -/
structure IconResourceType where
  default : Option String := none
  state : Option (List (String × String)) := none
deriving DecidableEq, Repr

/-- Truthiness of an `IconResourceType` dict: nonempty iff some key present. -/
def iconResourceTruthy (rt : IconResourceType) : Bool :=
  rt.default.isSome || rt.state.isSome

/-- The icon catalog: domain name → resource-type name → resource bundle
(the merged `result["resources"]` dictionaries of `get_icons`). -/
abbrev Icons := List (String × List (String × IconResourceType))

/-- `helpers.get_domain_from_entity_id`: `entity_id.split(".", 1)[0]`,
i.e. the characters before the first dot. -/
def get_domain_from_entity_id (entity_id : String) : String :=
  String.mk (entity_id.data.takeWhile (fun c => c != '.'))

/-- `helpers.get_icon_for_state`: look up the domain in the catalog, take
the `"_"` resource type, return its `default` glyph name; `None` at any
missing or falsy step. -/
def get_icon_for_state (icons : Icons) (domain_name : String) : Option String :=
  match (List.find? (fun p => p.1 == domain_name) icons) with
  | none => none
  | some (_, resource_types) =>
    if resource_types.isEmpty then none
    else
      match List.find? (fun p => p.1 == "_") resource_types with
      | none => none
      | some (_, default_resource_type) =>
        if !iconResourceTruthy default_resource_type then none
        else default_resource_type.default

/-- `helpers.mdi_nf_mapping`: the hand-maintained MDI-name → nerdfont-key
override table. -/
def mdi_nf_mapping : List (String × String) :=
  [("mdi:button-pointer", "nf-md-gesture_tap_button"),
   ("mdi:radiobox-blank", "nf-fa-toggle_off"),
   ("mdi:radiobox-marked", "nf-fa-toggle_on")]

/-- `helpers.fallback_domain_icons`: the fixed domain → MDI icon table. -/
def fallback_domain_icons : List (String × String) :=
  [("ai_task", "mdi:star-four-points"),
   ("air_quality", "mdi:air-filter"),
   ("alert", "mdi:alert"),
   ("automation", "mdi:robot"),
   ("calendar", "mdi:calendar"),
   ("climate", "mdi:thermostat"),
   ("configurator", "mdi:cog"),
   ("conversation", "mdi:forum-outline"),
   ("counter", "mdi:counter"),
   ("date", "mdi:calendar"),
   ("datetime", "mdi:calendar-clock"),
   ("demo", "mdi:home-assistant"),
   ("device_tracker", "mdi:account"),
   ("google_assistant", "mdi:google-assistant"),
   ("group", "mdi:google-circles-communities"),
   ("homeassistant", "mdi:home-assistant"),
   ("homekit", "mdi:home-automation"),
   ("image_processing", "mdi:image-filter-frames"),
   ("image", "mdi:image"),
   ("input_boolean", "mdi:toggle-switch"),
   ("input_button", "mdi:button-pointer"),
   ("input_datetime", "mdi:calendar-clock"),
   ("input_number", "mdi:ray-vertex"),
   ("input_select", "mdi:format-list-bulleted"),
   ("input_text", "mdi:form-textbox"),
   ("lawn_mower", "mdi:robot-mower"),
   ("light", "mdi:lightbulb"),
   ("notify", "mdi:comment-alert"),
   ("number", "mdi:ray-vertex"),
   ("persistent_notification", "mdi:bell"),
   ("person", "mdi:account"),
   ("plant", "mdi:flower"),
   ("proximity", "mdi:apple-safari"),
   ("remote", "mdi:remote"),
   ("scene", "mdi:palette"),
   ("schedule", "mdi:calendar-clock"),
   ("script", "mdi:script-text"),
   ("select", "mdi:format-list-bulleted"),
   ("sensor", "mdi:eye"),
   ("simple_alarm", "mdi:bell"),
   ("siren", "mdi:bullhorn"),
   ("stt", "mdi:microphone-message"),
   ("sun", "mdi:white-balance-sunny"),
   ("text", "mdi:form-textbox"),
   ("time", "mdi:clock"),
   ("timer", "mdi:timer-outline"),
   ("template", "mdi:code-braces"),
   ("todo", "mdi:clipboard-list"),
   ("tts", "mdi:speaker-message"),
   ("vacuum", "mdi:robot-vacuum"),
   ("wake_word", "mdi:chat-sleep"),
   ("weather", "mdi:weather-partly-cloudy"),
   ("zone", "mdi:map-marker-radius")]

/-- Python `table.get(k)` for a fixed string-keyed table. -/
def tableGet (table : List (String × String)) (k : String) : Option String :=
  (List.find? (fun p => p.1 == k) table).map Prod.snd

/-- `helpers.get_special_case_icon`: hard-coded frontend special cases,
entity-id-prefix checks first, then the fixed domain table. -/
def get_special_case_icon (entity_id : String) : Option String :=
  if pyStartswith entity_id "input_datetime" then some "mdi:clock"
  else if pyStartswith entity_id "sun" then some "mdi:white-balance-sunny"
  else tableGet fallback_domain_icons (get_domain_from_entity_id entity_id)

/-- `helpers.mdi_to_nerd_font_name`, parameterised over the external
`nerdfont.icons` dictionary `nf`: mangle `mdi:some-thing` to
`nf-md-some_thing` and return it only when the glyph dictionary has a
truthy glyph for it.  `.error` is the `IndexError` the Python code
raises when the name has no colon. -/
def mdi_to_nerd_font_name (nf : String → Option String) (mdi_name : String) :
    Except String (Option String) :=
  match pyAfterColon mdi_name with
  | none => .error "IndexError"
  | some mdi_name_suffix =>
    let nf_name := "nf-md-" ++ mdi_name_suffix.replace "-" "_"
    if optTruthy (nf nf_name) then .ok (some nf_name) else .ok none

/-- The translation stage of `helpers.get_nf_icon_for_entity`
(lines 186–201): `nf_name = mdi_nf_mapping.get(mdi_name) or
mdi_to_nerd_font_name(mdi_name)` (short-circuiting, so the mangler only
runs when the override table yields nothing), raise when it is falsy,
then look the name up in `nerdfont.icons` and raise when the glyph is
falsy. -/
def translate_mdi_name (nf : String → Option String) (mdi : String) :
    Except String String :=
  match (if optTruthy (tableGet mdi_nf_mapping mdi) then
          .ok (tableGet mdi_nf_mapping mdi)
         else mdi_to_nerd_font_name nf mdi : Except String (Option String)) with
  | .error e => .error e
  | .ok nf_name =>
    if !optTruthy nf_name then .error "Failed to nf icon name"
    else
      match nf_name with
      | none => .error "Failed to nf icon name"
      | some n =>
        match nf n with
        | none => .error "Failed to get icon glyph"
        | some nf_glyph =>
          if nf_glyph.isEmpty then .error "Failed to get icon glyph"
          else .ok nf_glyph

/-- `helpers.get_nf_icon_for_entity`, parameterised over the external
`nerdfont.icons` dictionary `nf`.  Raised exceptions become `.error`
with the exception's message. -/
def get_nf_icon_for_entity (nf : String → Option String) (icons : Icons)
    (entity : Entity) : Except String String :=
  let entity_id := entity.entity_id
  let domain_name := get_domain_from_entity_id entity_id
  let mdi_name :=
    pyOr (pyOr entity.icon (get_icon_for_state icons domain_name))
      (get_special_case_icon entity_id)
  if !optTruthy mdi_name then .error "No icon found."
  else
    match mdi_name with
    | none => .error "No icon found."
    | some mdi => translate_mdi_name nf mdi

/-- `helpers.filter_entities`: the hard-excluded domain lists. -/
def disabled_domains : List String :=
  ["stt", "tts", "event", "automation", "update", "device_tracker",
   "weather", "assist_satellite", "script"]

/-- `helpers.filter_entities`: the hidden-domain list. -/
def hide_domains : List String :=
  ["device_tracker", "persistent_notification", "todo", "assist_satellite",
   "automation", "configurator", "event", "geo_location", "notify",
   "script", "sun", "tag", "zone", "ai_task"]

/-- `helpers.filter_entities`: the hard-excluded platform list. -/
def hide_platform : List String := ["backup", "mobile_app"]

/-- `helpers.filter_entities`: Lovelace-equivalent visibility filter. -/
def filter_entities (entities : List Entity) : List Entity :=
  entities.filter (fun x =>
    !optTruthy x.hidden_by
    && !optTruthy x.disabled_by
    && !((disabled_domains ++ hide_domains).contains
          (get_domain_from_entity_id x.entity_id))
    && !(x.entity_category == some "diagnostic")
    && !(x.entity_category == some "config")
    && !((hide_platform.map some).contains x.platform)
    && !x.entity_id.isEmpty)

/-- `helpers.get_device_name_from_device_id`: find the first device with
the given id; raise when it is missing or its name is falsy. -/
def get_device_name_from_device_id (device_id : String) (devices : List Device) :
    Except String String :=
  match List.find? (fun x => x.id == device_id) devices with
  | none => .error "Missing device"
  | some device =>
    match device.name with
    | none => .error "Device has no name?"
    | some device_name =>
      if device_name.isEmpty then .error "Device has no name?"
      else .ok device_name

/-- `helpers.get_area_name_by_area_id`: find the first area with the given
id; raise when it is missing or its name is falsy. -/
def get_area_name_by_area_id (area_id : String) (areas : List Area) :
    Except String String :=
  match List.find? (fun x => x.area_id == some area_id) areas with
  | none => .error "Could not find area?"
  | some area =>
    match area.name with
    | none => .error "Area does not have name?"
    | some area_name =>
      if area_name.isEmpty then .error "Area does not have name?"
      else .ok area_name

/-- `helpers.get_entities_for_domain`: entities whose id starts with
`domain` followed by a dot. -/
def get_entities_for_domain (domain : String) (entities : List Entity) :
    List Entity :=
  entities.filter (fun x => pyStartswith x.entity_id (domain ++ "."))

/-- `helpers.get_area_of_entity`: the entity's own truthy `area_id`,
else the `area_id` of the device referenced by a truthy `device_id`. -/
def get_area_of_entity (entity : Entity) (devices : List Device) :
    Option String :=
  if optTruthy entity.area_id then entity.area_id
  else
    match entity.device_id with
    | none => none
    | some device_id =>
      if device_id.isEmpty then none
      else
        match List.find? (fun x => x.id == device_id) devices with
        | none => none
        | some device => device.area_id

/-- `helpers.get_entities_in_area`: entities with a truthy `entity_id`
whose resolved area (`get_area_of_entity`) is the given `area_id`. -/
def get_entities_in_area (area_id : String) (entities : List Entity)
    (devices : List Device) : List Entity :=
  entities.filter (fun entity =>
    !entity.entity_id.isEmpty
      && (get_area_of_entity entity devices == some area_id))

/-- `helpers.get_entities_for_device`: entities whose `device_id` equals
the given id. -/
def get_entities_for_device (device_id : String) (entities : List Entity) :
    List Entity :=
  entities.filter (fun entity => entity.device_id == some device_id)

/-- `split_entities_by_group`, stage 1a: the non-`None` `area_id`s. -/
def area_ids_of (areas : List Area) : List String :=
  (areas.map Area.area_id).filterMap id

/-- `split_entities_by_group`, stage 1b: `areas_with_entities`, the dict
mapping each area id to the entities resolved into that area. -/
def areas_with_entities_of (areas : List Area) (devices : List Device)
    (entities : List Entity) : List (String × List Entity) :=
  dictOfPairs ((area_ids_of areas).map
    (fun k => (k, get_entities_in_area k entities devices)))

/-- `split_entities_by_group`, stage 1c: `area_names_with_entities` as raw
key/value pairs — each area-id key replaced by the area's display name
(raising when the area has no name). -/
def area_groups_named (areas : List Area) (devices : List Device)
    (entities : List Entity) : Except String (List (String × List Entity)) :=
  exceptMapList
    (fun p => (get_area_name_by_area_id p.1 areas).map (fun n => (n, p.2)))
    (areas_with_entities_of areas devices entities)

/-- `split_entities_by_group`, stage 2a: `entity_ids_with_area`. -/
def entity_ids_with_area_of (areas : List Area) (devices : List Device)
    (entities : List Entity) : List String :=
  (((areas_with_entities_of areas devices entities).map Prod.snd).flatten).map
    Entity.entity_id

/-- `split_entities_by_group`, stage 2b: `entities_without_area`. -/
def entities_without_area_of (areas : List Area) (devices : List Device)
    (entities : List Entity) : List Entity :=
  entities.filter (fun x =>
    !((entity_ids_with_area_of areas devices entities).contains x.entity_id))

/-- `split_entities_by_group`, stage 3a: `devices_with_entities`, the dict
mapping each device id to the remaining entities owned by that device. -/
def devices_with_entities_of (areas : List Area) (devices : List Device)
    (entities : List Entity) : List (String × List Entity) :=
  dictOfPairs ((devices.map Device.id).map
    (fun k =>
      (k, get_entities_for_device k
            (entities_without_area_of areas devices entities))))

/-- `split_entities_by_group`, stage 3b: `device_names_with_entities` as
raw key/value pairs — each device-id key replaced by the device's name
(raising when the device has no name). -/
def device_groups_named (areas : List Area) (devices : List Device)
    (entities : List Entity) : Except String (List (String × List Entity)) :=
  exceptMapList
    (fun p =>
      (get_device_name_from_device_id p.1 devices).map (fun n => (n, p.2)))
    (devices_with_entities_of areas devices entities)

/-- `split_entities_by_group`, stage 4a: `entity_ids_with_device`. -/
def entity_ids_with_device_of (areas : List Area) (devices : List Device)
    (entities : List Entity) : List String :=
  (((devices_with_entities_of areas devices entities).map Prod.snd).flatten).map
    Entity.entity_id

/-- `split_entities_by_group`, stage 4b: `other_entity_ids`. -/
def other_entity_ids_of (areas : List Area) (devices : List Device)
    (entities : List Entity) : List String :=
  ((entities_without_area_of areas devices entities).map Entity.entity_id).filter
    (fun x =>
      !((entity_ids_with_device_of areas devices entities).contains x))

/-- `split_entities_by_group`, stage 4c: `domains` (a Python set,
materialised in first-occurrence order). -/
def domains_of (areas : List Area) (devices : List Device)
    (entities : List Entity) : List String :=
  pySetList
    ((other_entity_ids_of areas devices entities).map get_domain_from_entity_id)

/-- `split_entities_by_group`, stage 4d: `other_entities`. -/
def other_entities_of (areas : List Area) (devices : List Device)
    (entities : List Entity) : List Entity :=
  entities.filter (fun x =>
    (other_entity_ids_of areas devices entities).contains x.entity_id)

/-- `split_entities_by_group`, stage 4e: `domains_with_entities` as raw
key/value pairs — humanized domain label to the domain's entities. -/
def domain_group_pairs (areas : List Area) (devices : List Device)
    (entities : List Entity) : List (String × List Entity) :=
  (domains_of areas devices entities).map
    (fun k =>
      (pyTitle (k.replace "_" " "),
       get_entities_for_domain k (other_entities_of areas devices entities)))

/-- `helpers.split_entities_by_group`: group entities by area, then
device, then domain; merge the three label-keyed dicts with
later-wins semantics and drop empty groups. -/
def split_entities_by_group (areas : List Area) (devices : List Device)
    (entities : List Entity) : Except String (List (String × List Entity)) :=
  match area_groups_named areas devices entities with
  | .error e => .error e
  | .ok a =>
    match device_groups_named areas devices entities with
    | .error e => .error e
    | .ok d =>
      .ok ((dictOfPairs (a ++ d ++ domain_group_pairs areas devices entities)).filter
        (fun p => decide (0 < p.2.length)))

/-- The external calls made by `helpers.render_state`, as abstract
functions: the `nerdfont.icons` dictionary, and the three composite
library calls (each may raise, modelled as `Except`, or — for the
numeric branch, whose exceptions the code catches — fail as `none`):
* `naturaldelta_from_raw s` is `humanize.naturaldelta(timedelta(seconds=float(s)))`;
* `naturaldate_from_raw s` is `humanize.naturaldate(datetime.fromisoformat(s))`;
* `intcomma_render s` is `humanize.intcomma(int(s), 2)` when `int(s)`
  parses, else `humanize.intcomma(float(s), 2)` when `float(s)` parses,
  else `none` (both `except` branches taken). -/
structure RenderExt where
  nfIcons : String → Option String
  naturaldelta_from_raw : String → Except String String
  naturaldate_from_raw : String → Except String String
  intcomma_render : String → Option String

/-- Python `str(x)` on a `str | None` value (used for the unit suffix). -/
def pyStr : Option String → String
  | none => "None"
  | some s => s

/-- `helpers.render_state`, parameterised over the external calls
`ext`: ordered rule evaluation, first match wins. -/
def render_state (ext : RenderExt) (entity_id : String)
    (state_raw : Option String) (state_class : Option String)
    (device_class : Option String) (unit_of_measurement : Option String) :
    Except String String :=
  let domain := get_domain_from_entity_id entity_id
  if domain == "input_button" || domain == "button" then .ok "Press"
  else if !optTruthy state_raw then .ok ""
  else
    let raw := state_raw.getD ""
    if raw == "unknown" || raw == "unavailable" then .ok raw
    else if (state_class == some "measurement"
              || state_class == some "total_increasing")
            && device_class == some "duration"
            && unit_of_measurement == some "s" then
      ext.naturaldelta_from_raw raw
    else if device_class == some "timestamp" then
      ext.naturaldate_from_raw raw
    else
      let numeric_branch :=
        (state_class == some "measurement"
          || state_class == some "total_increasing")
        || (!optTruthy device_class && !optTruthy state_class
              && optTruthy unit_of_measurement)
      match (if numeric_branch then ext.intcomma_render raw else none) with
      | some humanized => .ok (humanized ++ pyStr unit_of_measurement)
      | none =>
        if (domain == "light" || domain == "switch") && raw == "on" then
          match ext.nfIcons "nf-fa-toggle_on" with
          | some glyph => .ok glyph
          | none => .error "KeyError"
        else if (domain == "light" || domain == "switch") && raw == "off" then
          match ext.nfIcons "nf-fa-toggle_off" with
          | some glyph => .ok glyph
          | none => .error "KeyError"
        else .ok raw

/-- `helpers.get_state_classes`: map a rendered state string to its tcss
class list.  Note the source line `if state_rendered in ["unavailable" or
"unknown"]:` — the Python expression `"unavailable" or "unknown"`
evaluates to `"unavailable"`, so the list is `["unavailable"]`. -/
def get_state_classes (state_rendered : String) : String :=
  if state_rendered == "Press" then "state state-button"
  else if state_rendered == "unavailable" then "state state-unavailable"
  else if state_rendered == "off" || state_rendered == "closed" then
    "state state-off"
  else if state_rendered == "on" || state_rendered == "open" then
    "state state-on"
  else "state"

/-- One record of `requests_expecting_response_queue`
(`{id, callback}`); the continuation is identified abstractly by a
value of type `κ`. -/
structure PendingCommand (κ : Type) where
  id : Nat
  callback : κ
deriving DecidableEq, Repr

/-- The part of an inbound websocket message `handle_response` inspects:
its optional `id` field. -/
structure WsResponse where
  id : Option Nat
deriving DecidableEq, Repr

/-- `dashboard.HomeAssistantDashboard.handle_response`:
route a response to the pending command with a matching id.  The result
is the invoked continuation (if any) together with the state of
`requests_expecting_response_queue` afterwards (the code's removal of the
matched record is commented out, so the queue is returned unchanged).
Python truthiness of the id (`if not id:`) makes both a missing id and
id `0` raise. -/
def handle_response (queue : List (PendingCommand κ)) (response : WsResponse) :
    Except String (Option κ × List (PendingCommand κ)) :=
  match response.id with
  | none => .error "No ID in response?"
  | some id =>
    if id == 0 then .error "No ID in response?"
    else
      let matching_requests := queue.filter (fun x => x.id == id)
      if matching_requests.length > 1 then .error "Too many matching requests?"
      else
        match matching_requests with
        | [] => .ok (none, queue)
        | matching_request :: _ => .ok (some matching_request.callback, queue)

/-- The single-entity wrapper of a subscription "changes" record
(`hatui_types.SubscribedEntitiesEventChanged`): its `"+"` key, holding
the changed fields, may be absent. -/
structure ChangedWrapper (δ : Type) where
  plus : Option δ
deriving DecidableEq, Repr

/-- A `subscribe_entities` delta event (`hatui_types.SubscribeEntitiesEvent`):
an optional additions map `a` and an optional changes map `c`, with
entity details of abstract type `δ`. -/
structure SubscribeEntitiesEvent (δ : Type) where
  a : Option (List (String × δ)) := none
  c : Option (List (String × ChangedWrapper δ)) := none
deriving DecidableEq, Repr

/-- The update-selection step of
`dashboard.update_dashboard_with_entity_updates` (lines 474–481): build
`entity_additions = event.get("a", {})` and
`entity_changes = {k: v.get("+") for k, v in event.get("c", {}).items()}`,
then `entity_updates = entity_changes or entity_additions`.  The
function's loop then applies exactly the returned entries to the
widgets, so the returned list is the set of per-entity updates applied
this cycle. -/
def select_entity_updates (event : SubscribeEntitiesEvent δ) :
    List (String × Option δ) :=
  let entity_additions := (event.a.getD []).map (fun p => (p.1, some p.2))
  let entity_changes := (event.c.getD []).map (fun p => (p.1, p.2.plus))
  if !entity_changes.isEmpty then entity_changes else entity_additions

instance exceptDecEq {ε α : Type} [DecidableEq ε] [DecidableEq α] :
    DecidableEq (Except ε α)
  | .error e, .error f =>
    if h : e = f then .isTrue (by rw [h])
    else .isFalse (fun hh => h (Except.error.inj hh))
  | .error _, .ok _ => .isFalse (fun hh => Except.noConfusion hh)
  | .ok _, .error _ => .isFalse (fun hh => Except.noConfusion hh)
  | .ok a, .ok b =>
    if h : a = b then .isTrue (by rw [h])
    else .isFalse (fun hh => h (Except.ok.inj hh))

/-! ## General lemmas about the dictionary and traversal helpers -/

theorem dictInsert_of_not_mem {α : Type} (d : List (String × α)) (k : String)
    (v : α) (h : ∀ p ∈ d, p.1 ≠ k) : dictInsert d k v = d ++ [(k, v)] := by
  unfold dictInsert
  have : d.any (fun p => p.1 == k) = false := by
    simp only [List.any_eq_false]
    intro p hp
    simpa using h p hp
  simp [this]

theorem dictOfPairs_aux_eq {α : Type} (ps acc : List (String × α))
    (h : ((acc ++ ps).map Prod.fst).Nodup) :
    ps.foldl (fun d p => dictInsert d p.1 p.2) acc = acc ++ ps := by
  induction ps generalizing acc with
  | nil => simp
  | cons p ps ih =>
    simp only [List.foldl_cons]
    have hk : ∀ q ∈ acc, q.1 ≠ p.1 := by
      intro q hq heq
      have h' : ((acc.map Prod.fst) ++ ((p :: ps).map Prod.fst)).Nodup := by
        simpa using h
      have hd := (List.nodup_append.mp h').2.2
      exact hd (List.mem_map_of_mem _ hq) (by simp [heq])
    rw [dictInsert_of_not_mem acc p.1 p.2 hk]
    have h2 : (((acc ++ [(p.1, p.2)]) ++ ps).map Prod.fst).Nodup := by
      simpa using h
    simpa using ih (acc ++ [(p.1, p.2)]) h2

theorem dictOfPairs_eq_self {α : Type} (ps : List (String × α))
    (h : (ps.map Prod.fst).Nodup) : dictOfPairs ps = ps := by
  simpa using dictOfPairs_aux_eq ps [] (by simpa using h)

theorem exceptMapList_ok_forall₂ {α β ε : Type} (f : α → Except ε β) :
    ∀ (l : List α) (ys : List β), exceptMapList f l = .ok ys →
      List.Forall₂ (fun x y => f x = .ok y) l ys := by
  intro l
  induction l with
  | nil =>
    intro ys h
    simp only [exceptMapList] at h
    cases h
    exact .nil
  | cons x xs ih =>
    intro ys h
    simp only [exceptMapList] at h
    cases hx : f x with
    | error e => rw [hx] at h; cases h
    | ok y =>
      rw [hx] at h
      cases hxs : exceptMapList f xs with
      | error e => rw [hxs] at h; cases h
      | ok ys' =>
        rw [hxs] at h
        cases h
        exact .cons hx (ih ys' hxs)

theorem exceptMapList_ok_of_mem {α β ε : Type} (f : α → Except ε β) :
    ∀ (l : List α) (ys : List β), exceptMapList f l = .ok ys →
      ∀ x ∈ l, ∃ y, f x = .ok y := by
  intro l
  induction l with
  | nil => intro ys _ x hx; cases hx
  | cons z zs ih =>
    intro ys h x hx
    simp only [exceptMapList] at h
    cases hz : f z with
    | error e => rw [hz] at h; cases h
    | ok y =>
      rw [hz] at h
      cases hzs : exceptMapList f zs with
      | error e => rw [hzs] at h; cases h
      | ok ys' =>
        rcases List.mem_cons.mp hx with rfl | hx
        · exact ⟨y, hz⟩
        · exact ih ys' hzs x hx

theorem exceptMapList_error_of_mem {α β ε : Type} (f : α → Except ε β)
    (l : List α) (x : α) (hx : x ∈ l) (e : ε) (he : f x = .error e) :
    ∃ e', exceptMapList f l = .error e' := by
  cases h : exceptMapList f l with
  | error e' => exact ⟨e', rfl⟩
  | ok ys =>
    rcases exceptMapList_ok_of_mem f l ys h x hx with ⟨y, hy⟩
    rw [he] at hy
    cases hy

theorem exceptMapList_map_snd {α β ε : Type} (g : String → Except ε β)
    (l ys) (h : exceptMapList
        (fun p : String × α => (g p.1).map (fun n => (n, p.2))) l = .ok ys) :
    List.Forall₂ (fun (x : String × α) (y : β × α) =>
      g x.1 = .ok y.1 ∧ y.2 = x.2) l ys := by
  have hf := exceptMapList_ok_forall₂ _ l ys h
  revert hf
  apply List.Forall₂.imp
  intro p y hy
  cases hg : g p.1 with
  | error e => rw [hg] at hy; simp [Except.map] at hy
  | ok n =>
    rw [hg] at hy
    simp only [Except.map] at hy
    cases hy
    exact ⟨rfl, rfl⟩

theorem find?_key_self {α β : Type} [BEq β] [LawfulBEq β] (f : α → β) :
    ∀ (l : List α) (a : α), (l.map f).Nodup → a ∈ l →
      l.find? (fun x => f x == f a) = some a := by
  intro l
  induction l with
  | nil => intro a _ ha; cases ha
  | cons b bs ih =>
    intro a h ha
    rcases List.mem_cons.mp ha with rfl | ha
    · simp [List.find?]
    · have hne : f b ≠ f a := by
        intro he
        have : f a ∈ bs.map f := List.mem_map_of_mem _ ha
        simp only [List.map_cons, List.nodup_cons] at h
        exact h.1 (he ▸ this)
      have hb : (f b == f a) = false := by simpa using hne
      simp only [List.find?, hb]
      exact ih a (by simp only [List.map_cons, List.nodup_cons] at h; exact h.2) ha

theorem filter_key_self {α β : Type} [BEq β] [LawfulBEq β] (f : α → β) :
    ∀ (l : List α) (a : α), (l.map f).Nodup → a ∈ l →
      l.filter (fun x => f x == f a) = [a] := by
  intro l
  induction l with
  | nil => intro a _ ha; cases ha
  | cons b bs ih =>
    intro a h ha
    simp only [List.map_cons, List.nodup_cons] at h
    rcases List.mem_cons.mp ha with rfl | ha
    · have hnil : bs.filter (fun x => f x == f a) = [] := by
        apply List.filter_eq_nil_iff.mpr
        intro x hx hbe
        exact h.1 (by
          have hfx : f x = f a := by simpa using hbe
          exact hfx ▸ List.mem_map_of_mem _ hx)
      simp [List.filter_cons, hnil]
    · have hne : f b ≠ f a := by
        intro he
        exact h.1 (he ▸ List.mem_map_of_mem _ ha)
      have hb : (f b == f a) = false := by simpa using hne
      simp only [List.filter_cons, hb, if_neg Bool.false_ne_true]
      exact ih a h.2 ha

theorem pySetList_aux_mem (l acc : List String) (x : String) :
    x ∈ l.foldl (fun acc y => if acc.contains y then acc else acc ++ [y]) acc ↔
      x ∈ acc ∨ x ∈ l := by
  induction l generalizing acc with
  | nil => simp
  | cons y ys ih =>
    simp only [List.foldl_cons]
    by_cases hy : acc.contains y
    · rw [if_pos hy]
      rw [ih acc]
      constructor
      · rintro (hx | hx)
        · exact Or.inl hx
        · exact Or.inr (List.mem_cons_of_mem _ hx)
      · rintro (hx | hx)
        · exact Or.inl hx
        · rcases List.mem_cons.mp hx with rfl | hx
          · exact Or.inl (by simpa using hy)
          · exact Or.inr hx
    · rw [if_neg hy]
      rw [ih (acc ++ [y])]
      simp only [List.mem_append, List.mem_singleton, List.mem_cons]
      tauto

theorem pySetList_mem (l : List String) (x : String) :
    x ∈ pySetList l ↔ x ∈ l := by
  unfold pySetList
  rw [pySetList_aux_mem l [] x]
  simp

theorem pySetList_aux_nodup (l acc : List String) (h : acc.Nodup) :
    (l.foldl (fun acc y => if acc.contains y then acc else acc ++ [y]) acc).Nodup := by
  induction l generalizing acc with
  | nil => simpa
  | cons y ys ih =>
    simp only [List.foldl_cons]
    by_cases hy : acc.contains y
    · rw [if_pos hy]; exact ih acc h
    · rw [if_neg hy]
      refine ih (acc ++ [y]) ?_
      have hyn : y ∉ acc := by simpa using hy
      simp [List.nodup_append, h, hyn]

theorem pySetList_nodup (l : List String) : (pySetList l).Nodup := by
  unfold pySetList
  exact pySetList_aux_nodup l [] (by simp)

theorem string_isEmpty_false_iff (s : String) :
    s.isEmpty = false ↔ s ≠ "" := by
  rw [Bool.eq_false_iff]
  exact not_congr
    ⟨fun h => (String.isEmpty_iff s).mp h, fun h => (String.isEmpty_iff s).mpr h⟩

theorem optTruthy_none : optTruthy none = false := rfl

theorem optTruthy_some (s : String) : optTruthy (some s) = !s.isEmpty := rfl

theorem forall₂_countP_eq {α β : Type} (R : α → β → Prop) (l : List α)
    (ys : List β) (h : List.Forall₂ R l ys) (p : α → Bool) (q : β → Bool)
    (hpq : ∀ x y, R x y → p x = q y) : l.countP p = ys.countP q := by
  induction h with
  | nil => rfl
  | cons hr _ ih =>
    simp only [List.countP_cons, ih, hpq _ _ hr]

/-! ## Lemmas about domains and stage membership (for claim C2) -/

theorem countP_congr_mem {α : Type} (l : List α) (p q : α → Bool)
    (h : ∀ a ∈ l, p a = q a) : l.countP p = l.countP q := by
  induction l with
  | nil => rfl
  | cons x xs ih =>
    simp only [List.countP_cons, h x (by simp),
      ih (fun a ha => h a (List.mem_cons_of_mem _ ha))]

theorem takeWhile_ne_dot_no_dot (l : List Char) :
    '.' ∉ l.takeWhile (fun c => c != '.') := by
  intro h
  have := List.mem_takeWhile_imp h
  simp at this

theorem takeWhile_dot_prefix (l : List Char) (h : '.' ∈ l) :
    (l.takeWhile (fun c => c != '.')) ++ ['.'] <+: l := by
  induction l with
  | nil => cases h
  | cons c cs ih =>
    by_cases hc : c = '.'
    · subst hc
      refine ⟨cs, ?_⟩
      simp [List.takeWhile_cons]
    · have hcs : '.' ∈ cs := by
        rcases List.mem_cons.mp h with rfl | h2
        · exact absurd rfl hc
        · exact h2
      have hpre := ih hcs
      have hcne : (c != '.') = true := by simpa using hc
      simp only [List.takeWhile_cons, hcne, if_true, List.cons_append]
      exact (List.cons_prefix_cons).mpr ⟨rfl, hpre⟩

theorem prefix_dot_unique (d : List Char) :
    ∀ (l : List Char), '.' ∉ d → d ++ ['.'] <+: l →
      d = l.takeWhile (fun c => c != '.') := by
  induction d with
  | nil =>
    intro l _ h
    rcases h with ⟨t, ht⟩
    rw [← ht]
    simp [List.takeWhile_cons]
  | cons c cs ih =>
    intro l hd h
    rcases h with ⟨t, ht⟩
    cases l with
    | nil => cases ht
    | cons b bs =>
      rw [List.cons_append, List.cons_append] at ht
      injection ht with h1 h2
      subst h1
      have hc : c ≠ '.' := fun hh => hd (by simp [hh])
      have hcs : cs = bs.takeWhile (fun c => c != '.') :=
        ih bs (fun hh => hd (List.mem_cons_of_mem _ hh)) ⟨t, h2⟩
      have hcne : (c != '.') = true := by simpa using hc
      simp [List.takeWhile_cons, hcne, ← hcs]

theorem domain_no_dot (s : String) :
    '.' ∉ (get_domain_from_entity_id s).data :=
  takeWhile_ne_dot_no_dot s.data

theorem pyStartswith_domain_self (s : String) (h : '.' ∈ s.data) :
    pyStartswith s (get_domain_from_entity_id s ++ ".") = true := by
  unfold pyStartswith get_domain_from_entity_id
  rw [List.isPrefixOf_iff_prefix, String.data_append]
  exact takeWhile_dot_prefix s.data h

theorem pyStartswith_domain_unique (s d : String) (hd : '.' ∉ d.data)
    (h : pyStartswith s (d ++ ".") = true) :
    d = get_domain_from_entity_id s := by
  unfold pyStartswith at h
  rw [List.isPrefixOf_iff_prefix, String.data_append] at h
  unfold get_domain_from_entity_id
  exact congrArg String.mk (prefix_dot_unique d.data s.data hd h)

theorem mem_get_entities_in_area (k : String) (entities : List Entity)
    (devices : List Device) (e : Entity) :
    e ∈ get_entities_in_area k entities devices ↔
      e ∈ entities ∧ e.entity_id.isEmpty = false
        ∧ get_area_of_entity e devices = some k := by
  simp [get_entities_in_area, List.mem_filter, and_assoc]

theorem mem_get_entities_for_device (k : String) (l : List Entity)
    (e : Entity) :
    e ∈ get_entities_for_device k l ↔ e ∈ l ∧ e.device_id = some k := by
  simp [get_entities_for_device, List.mem_filter]

theorem mem_get_entities_for_domain (k : String) (l : List Entity)
    (e : Entity) :
    e ∈ get_entities_for_domain k l ↔
      e ∈ l ∧ pyStartswith e.entity_id (k ++ ".") = true := by
  simp [get_entities_for_domain, List.mem_filter]

theorem mem_entities_without_area (areas : List Area)
    (devices : List Device) (entities : List Entity) (e : Entity) :
    e ∈ entities_without_area_of areas devices entities ↔
      e ∈ entities
        ∧ e.entity_id ∉ entity_ids_with_area_of areas devices entities := by
  simp [entities_without_area_of, List.mem_filter]

theorem mem_other_entities (areas : List Area) (devices : List Device)
    (entities : List Entity) (e : Entity) :
    e ∈ other_entities_of areas devices entities ↔
      e ∈ entities
        ∧ e.entity_id ∈ other_entity_ids_of areas devices entities := by
  simp [other_entities_of, List.mem_filter]

theorem mem_other_entity_ids (areas : List Area) (devices : List Device)
    (entities : List Entity) (x : String) :
    x ∈ other_entity_ids_of areas devices entities ↔
      (∃ e ∈ entities_without_area_of areas devices entities,
        e.entity_id = x)
        ∧ x ∉ entity_ids_with_device_of areas devices entities := by
  simp [other_entity_ids_of, List.mem_filter, List.mem_map]

theorem forall₂_mem_right {α β : Type} (R : α → β → Prop) (l : List α)
    (ys : List β) (h : List.Forall₂ R l ys) :
    ∀ y ∈ ys, ∃ x ∈ l, R x y := by
  induction h with
  | nil => intro y hy; cases hy
  | cons hr _ ih =>
    intro y hy
    rcases List.mem_cons.mp hy with rfl | hy
    · exact ⟨_, by simp, hr⟩
    · rcases ih y hy with ⟨x, hx, hrx⟩
      exact ⟨x, List.mem_cons_of_mem _ hx, hrx⟩

/-! ## Claim C2 — grouping is a partition

The claim fails in general: two areas with the same display name (or
any label collision, or an entity id without a domain separator, or
duplicate registry ids) make entities vanish from the merged
label-keyed dict.  With distinct registry ids, dotted entity ids and
pairwise-distinct group labels it holds. -/

/-- Two distinct areas sharing the display name "X". -/
def dupNameAreas : List Area :=
  [{ area_id := some "a1", name := some "X" },
   { area_id := some "a2", name := some "X" }]

/-- One visible entity in each of the two like-named areas. -/
def dupNameEntities : List Entity :=
  [{ entity_id := "light.one", area_id := some "a1" },
   { entity_id := "light.two", area_id := some "a2" }]

/-- C2, counterexample: both entities are filtered-visible, yet the
grouping collapses the two like-named area groups into one dict key, so
the first entity appears in no output group and the union of the group
members is not the filtered entity set. -/
theorem split_not_partition_cex :
    filter_entities dupNameEntities = dupNameEntities
    ∧ split_entities_by_group dupNameAreas [] dupNameEntities
        = .ok [("X", [{ entity_id := "light.two", area_id := some "a2" }])]
    ∧ ({ entity_id := "light.one", area_id := some "a1" } : Entity)
        ∈ dupNameEntities
    ∧ ({ entity_id := "light.one", area_id := some "a1" } : Entity)
        ∉ [{ entity_id := "light.two", area_id := some "a2" }] := by
  refine ⟨rfl, rfl, by simp [dupNameEntities], by simp⟩

/-- C2, amended: grouping is a partition of the visible entity set for
every snapshot whose registry ids are well-formed: pairwise-distinct
area ids, device ids and entity ids, every entity id non-empty and
containing a domain separator, and pairwise-distinct group labels
(area names, device names and humanized domain names together).  Every
entity then appears in exactly one output group, all group members are
entities of the snapshot, and no returned group is empty. -/
theorem split_entities_by_group_partition (areas : List Area)
    (devices : List Device) (entities : List Entity)
    (a d groups : List (String × List Entity))
    (ha : area_groups_named areas devices entities = .ok a)
    (hd : device_groups_named areas devices entities = .ok d)
    (hlab : ((a ++ d ++ domain_group_pairs areas devices entities).map
      Prod.fst).Nodup)
    (hok : split_entities_by_group areas devices entities = .ok groups)
    (haids : (area_ids_of areas).Nodup)
    (hdids : (devices.map Device.id).Nodup)
    (heids : (entities.map Entity.entity_id).Nodup)
    (hwf : ∀ e ∈ entities, e.entity_id ≠ "" ∧ '.' ∈ e.entity_id.data) :
    (∀ e ∈ entities, groups.countP (fun p => decide (e ∈ p.2)) = 1)
    ∧ (∀ p ∈ groups, ∀ e ∈ p.2, e ∈ entities)
    ∧ (∀ p ∈ groups, p.2 ≠ []) := by
  classical
  -- notation
  set AI := area_ids_of areas with hAI
  set WA := entities_without_area_of areas devices entities with hWA
  set DI := devices.map Device.id with hDI
  set OIDs := other_entity_ids_of areas devices entities with hOIDs
  set OE := other_entities_of areas devices entities with hOE
  set DOMS := domains_of areas devices entities with hDOMS
  set dom := domain_group_pairs areas devices entities with hdom
  -- the pre-merge dicts are plain lists
  have hplainA : areas_with_entities_of areas devices entities
      = AI.map (fun k => (k, get_entities_in_area k entities devices)) := by
    unfold areas_with_entities_of
    apply dictOfPairs_eq_self
    simpa [List.map_map, Function.comp_def] using haids
  have hplainD : devices_with_entities_of areas devices entities
      = DI.map (fun k => (k, get_entities_for_device k WA)) := by
    unfold devices_with_entities_of
    apply dictOfPairs_eq_self
    simpa [List.map_map, Function.comp_def] using hdids
  -- the merged dict is the concatenation
  have hgroups : groups
      = (a ++ d ++ dom).filter (fun p => decide (0 < p.2.length)) := by
    unfold split_entities_by_group at hok
    simp only [ha, hd] at hok
    rw [dictOfPairs_eq_self _ hlab] at hok
    exact (Except.ok.inj hok).symm
  -- correspondence of the named groups with the id-keyed stages
  have hfa := exceptMapList_map_snd
    (fun k => get_area_name_by_area_id k areas)
    (areas_with_entities_of areas devices entities) a
    (by unfold area_groups_named at ha; exact ha)
  have hfd := exceptMapList_map_snd
    (fun k => get_device_name_from_device_id k devices)
    (devices_with_entities_of areas devices entities) d
    (by unfold device_groups_named at hd; exact hd)
  -- injectivity of entity ids
  have hinj : ∀ x ∈ entities, ∀ y ∈ entities,
      x.entity_id = y.entity_id → x = y :=
    fun x hx y hy hxy => List.inj_on_of_nodup_map heids hx hy hxy
  -- membership in the collected id lists
  have hidsA_intro : ∀ k ∈ AI,
      ∀ e' ∈ get_entities_in_area k entities devices,
      e'.entity_id ∈ entity_ids_with_area_of areas devices entities := by
    intro k hk e' he'
    unfold entity_ids_with_area_of
    rw [hplainA]
    apply List.mem_map_of_mem
    apply List.mem_flatten.mpr
    refine ⟨get_entities_in_area k entities devices, ?_, he'⟩
    rw [List.map_map]
    exact List.mem_map.mpr ⟨k, hk, rfl⟩
  have hidsA_elim : ∀ x,
      x ∈ entity_ids_with_area_of areas devices entities →
      ∃ k ∈ AI, ∃ e' ∈ get_entities_in_area k entities devices,
        e'.entity_id = x := by
    intro x hx
    unfold entity_ids_with_area_of at hx
    rw [hplainA, List.map_map] at hx
    rcases List.mem_map.mp hx with ⟨e', he'fl, rfl⟩
    rcases List.mem_flatten.mp he'fl with ⟨t, htm, he't⟩
    rcases List.mem_map.mp htm with ⟨k, hk, hkt⟩
    have ht2 : t = get_entities_in_area k entities devices := by
      rw [← hkt]; rfl
    exact ⟨k, hk, e', ht2 ▸ he't, rfl⟩
  have hidsD_intro : ∀ k ∈ DI,
      ∀ e' ∈ get_entities_for_device k WA,
      e'.entity_id ∈ entity_ids_with_device_of areas devices entities := by
    intro k hk e' he'
    unfold entity_ids_with_device_of
    rw [hplainD]
    apply List.mem_map_of_mem
    apply List.mem_flatten.mpr
    refine ⟨get_entities_for_device k WA, ?_, he'⟩
    rw [List.map_map]
    exact List.mem_map.mpr ⟨k, hk, rfl⟩
  have hidsD_elim : ∀ x,
      x ∈ entity_ids_with_device_of areas devices entities →
      ∃ k ∈ DI, ∃ e' ∈ get_entities_for_device k WA,
        e'.entity_id = x := by
    intro x hx
    unfold entity_ids_with_device_of at hx
    rw [hplainD, List.map_map] at hx
    rcases List.mem_map.mp hx with ⟨e', he'fl, rfl⟩
    rcases List.mem_flatten.mp he'fl with ⟨t, htm, he't⟩
    rcases List.mem_map.mp htm with ⟨k, hk, hkt⟩
    have ht2 : t = get_entities_for_device k WA := by
      rw [← hkt]; rfl
    exact ⟨k, hk, e', ht2 ▸ he't, rfl⟩
  -- count transfers to the id-keyed stages
  have hcA : ∀ e : Entity, a.countP (fun p => decide (e ∈ p.2))
      = AI.countP (fun k =>
          decide (e ∈ get_entities_in_area k entities devices)) := by
    intro e
    have h1 := forall₂_countP_eq _ _ _ hfa
      (fun x => decide (e ∈ x.2)) (fun y => decide (e ∈ y.2))
      (fun x y hxy =>
        show decide (e ∈ x.2) = decide (e ∈ y.2) by rw [hxy.2])
    rw [← h1, hplainA, List.countP_map]
    rfl
  have hcD : ∀ e : Entity, d.countP (fun p => decide (e ∈ p.2))
      = DI.countP (fun k => decide (e ∈ get_entities_for_device k WA)) := by
    intro e
    have h1 := forall₂_countP_eq _ _ _ hfd
      (fun x => decide (e ∈ x.2)) (fun y => decide (e ∈ y.2))
      (fun x y hxy =>
        show decide (e ∈ x.2) = decide (e ∈ y.2) by rw [hxy.2])
    rw [← h1, hplainD, List.countP_map]
    rfl
  have hcDom : ∀ e : Entity, dom.countP (fun p => decide (e ∈ p.2))
      = DOMS.countP (fun k =>
          decide (e ∈ get_entities_for_domain k OE)) := by
    intro e
    rw [hdom]
    unfold domain_group_pairs
    rw [List.countP_map]
    rfl
  -- the per-entity count over the three stages is one
  have hcount : ∀ e ∈ entities,
      (a ++ d ++ dom).countP (fun p => decide (e ∈ p.2)) = 1 := by
    intro e he
    obtain ⟨hne, hdot⟩ := hwf e he
    have hemp : e.entity_id.isEmpty = false :=
      (string_isEmpty_false_iff _).mpr hne
    rw [List.countP_append, List.countP_append, hcA, hcD, hcDom]
    by_cases hcaseA : ∃ r, get_area_of_entity e devices = some r ∧ r ∈ AI
    · -- e resolves into a listed area: one area group, nothing else
      rcases hcaseA with ⟨r, hRe, hrAI⟩
      have heInA : e ∈ get_entities_in_area r entities devices :=
        (mem_get_entities_in_area r entities devices e).mpr ⟨he, hemp, hRe⟩
      have h1 : AI.countP (fun k =>
          decide (e ∈ get_entities_in_area k entities devices)) = 1 := by
        rw [countP_congr_mem AI _ (fun k => k == r) ?_]
        · exact List.count_eq_one_of_mem haids hrAI
        · intro k hk
          by_cases hkr : k = r
          · subst hkr
            simp [heInA]
          · have hnot : e ∉ get_entities_in_area k entities devices := by
              intro hmem
              have h2 :=
                ((mem_get_entities_in_area k entities devices e).mp hmem).2.2
              rw [hRe] at h2
              exact hkr (Option.some.inj h2).symm
            simp [hnot, hkr]
      have hidA : e.entity_id ∈ entity_ids_with_area_of areas devices entities :=
        hidsA_intro r hrAI e heInA
      have hnWA : e ∉ WA := by
        rw [hWA]
        intro hmem
        exact ((mem_entities_without_area areas devices entities e).mp
          hmem).2 hidA
      have h2 : DI.countP (fun k =>
          decide (e ∈ get_entities_for_device k WA)) = 0 := by
        apply List.countP_eq_zero.mpr
        intro k _
        simp only [decide_eq_true_eq]
        intro hmem
        exact hnWA ((mem_get_entities_for_device k WA e).mp hmem).1
      have hnOE : e ∉ OE := by
        rw [hOE]
        intro hmem
        have hid := ((mem_other_entities areas devices entities e).mp hmem).2
        rcases ((mem_other_entity_ids areas devices entities
          e.entity_id).mp hid).1 with ⟨e', he'WA, he'id⟩
        have he'ent :=
          ((mem_entities_without_area areas devices entities e').mp he'WA).1
        have : e' = e := hinj e' he'ent e he he'id
        subst this
        exact ((mem_entities_without_area areas devices entities e').mp
          he'WA).2 hidA
      have h3 : DOMS.countP (fun k =>
          decide (e ∈ get_entities_for_domain k OE)) = 0 := by
        apply List.countP_eq_zero.mpr
        intro k _
        simp only [decide_eq_true_eq]
        intro hmem
        exact hnOE ((mem_get_entities_for_domain k OE e).mp hmem).1
      omega
    · -- e resolves into no listed area
      push_neg at hcaseA
      have h1 : AI.countP (fun k =>
          decide (e ∈ get_entities_in_area k entities devices)) = 0 := by
        apply List.countP_eq_zero.mpr
        intro k hk
        simp only [decide_eq_true_eq]
        intro hmem
        exact hcaseA k
          (((mem_get_entities_in_area k entities devices e).mp hmem).2.2) hk
      have heWA : e ∈ WA := by
        rw [hWA]
        apply (mem_entities_without_area areas devices entities e).mpr
        refine ⟨he, ?_⟩
        intro hid
        rcases hidsA_elim _ hid with ⟨k, hk, e', he'mem, he'id⟩
        have he'ent :=
          ((mem_get_entities_in_area k entities devices e').mp he'mem).1
        have : e' = e := hinj e' he'ent e he he'id
        subst this
        exact hcaseA k
          (((mem_get_entities_in_area k entities devices e').mp
            he'mem).2.2) hk
      by_cases hcaseD : ∃ did0, e.device_id = some did0 ∧ did0 ∈ DI
      · -- e is collected into a device group
        rcases hcaseD with ⟨did0, hdev, hdid0⟩
        have heInD : e ∈ get_entities_for_device did0 WA :=
          (mem_get_entities_for_device did0 WA e).mpr ⟨heWA, hdev⟩
        have h2 : DI.countP (fun k =>
            decide (e ∈ get_entities_for_device k WA)) = 1 := by
          rw [countP_congr_mem DI _ (fun k => k == did0) ?_]
          · exact List.count_eq_one_of_mem hdids hdid0
          · intro k hk
            by_cases hkd : k = did0
            · subst hkd
              simp [heInD]
            · have hnot : e ∉ get_entities_for_device k WA := by
                intro hmem
                have h3 := ((mem_get_entities_for_device k WA e).mp hmem).2
                rw [hdev] at h3
                exact hkd (Option.some.inj h3).symm
              simp [hnot, hkd]
        have hidD : e.entity_id
            ∈ entity_ids_with_device_of areas devices entities :=
          hidsD_intro did0 hdid0 e heInD
        have hnOE : e ∉ OE := by
          rw [hOE]
          intro hmem
          have hid := ((mem_other_entities areas devices entities e).mp
            hmem).2
          exact ((mem_other_entity_ids areas devices entities
            e.entity_id).mp hid).2 hidD
        have h3 : DOMS.countP (fun k =>
            decide (e ∈ get_entities_for_domain k OE)) = 0 := by
          apply List.countP_eq_zero.mpr
          intro k _
          simp only [decide_eq_true_eq]
          intro hmem
          exact hnOE ((mem_get_entities_for_domain k OE e).mp hmem).1
        omega
      · -- e falls through to a domain group
        push_neg at hcaseD
        have h2 : DI.countP (fun k =>
            decide (e ∈ get_entities_for_device k WA)) = 0 := by
          apply List.countP_eq_zero.mpr
          intro k hk
          simp only [decide_eq_true_eq]
          intro hmem
          exact hcaseD k
            ((mem_get_entities_for_device k WA e).mp hmem).2 hk
        have hnidD : e.entity_id
            ∉ entity_ids_with_device_of areas devices entities := by
          intro hid
          rcases hidsD_elim _ hid with ⟨k, hk, e', he'mem, he'id⟩
          have he'WA := ((mem_get_entities_for_device k WA e').mp he'mem).1
          have he'ent : e' ∈ entities := by
            rw [hWA] at he'WA
            exact ((mem_entities_without_area areas devices entities
              e').mp he'WA).1
          have : e' = e := hinj e' he'ent e he he'id
          subst this
          exact hcaseD k
            ((mem_get_entities_for_device k WA e').mp he'mem).2 hk
        have hidO : e.entity_id ∈ OIDs := by
          rw [hOIDs]
          apply (mem_other_entity_ids areas devices entities
            e.entity_id).mpr
          exact ⟨⟨e, by rw [← hWA]; exact heWA, rfl⟩, hnidD⟩
        have heOE : e ∈ OE := by
          rw [hOE]
          exact (mem_other_entities areas devices entities e).mpr
            ⟨he, by rw [← hOIDs]; exact hidO⟩
        have hdomIn : get_domain_from_entity_id e.entity_id ∈ DOMS := by
          rw [hDOMS]
          unfold domains_of
          rw [pySetList_mem]
          exact List.mem_map_of_mem _ (by rw [← hOIDs]; exact hidO)
        have hdomsNodup : DOMS.Nodup := by
          rw [hDOMS]; unfold domains_of; exact pySetList_nodup _
        have hdomNoDot : ∀ k ∈ DOMS, '.' ∉ k.data := by
          intro k hk
          rw [hDOMS] at hk
          unfold domains_of at hk
          rw [pySetList_mem] at hk
          rcases List.mem_map.mp hk with ⟨x, _, rfl⟩
          exact domain_no_dot x
        have h3 : DOMS.countP (fun k =>
            decide (e ∈ get_entities_for_domain k OE)) = 1 := by
          rw [countP_congr_mem DOMS _
            (fun k => k == get_domain_from_entity_id e.entity_id) ?_]
          · exact List.count_eq_one_of_mem hdomsNodup hdomIn
          · intro k hk
            by_cases hkd : k = get_domain_from_entity_id e.entity_id
            · have hmem : e ∈ get_entities_for_domain
                  (get_domain_from_entity_id e.entity_id) OE :=
                (mem_get_entities_for_domain _ OE e).mpr
                  ⟨heOE, pyStartswith_domain_self _ hdot⟩
              simp [hmem, hkd]
            · have hnot : e ∉ get_entities_for_domain k OE := by
                intro hmem
                exact hkd (pyStartswith_domain_unique _ _ (hdomNoDot k hk)
                  ((mem_get_entities_for_domain k OE e).mp hmem).2)
              simp [hnot, hkd]
        omega
  -- assemble the three conjuncts
  refine ⟨?_, ?_, ?_⟩
  · intro e he
    rw [hgroups, List.countP_filter]
    rw [countP_congr_mem _ _ (fun p => decide (e ∈ p.2)) ?_]
    · exact hcount e he
    · intro p _
      by_cases hep : e ∈ p.2
      · have : 0 < p.2.length := List.length_pos_of_mem hep
        simp [hep, this]
      · simp [hep]
  · intro p hp e hep
    have hp' : p ∈ a ++ d ++ dom := List.mem_of_mem_filter (by
      rw [hgroups] at hp; exact hp)
    rcases List.mem_append.mp hp' with hp2 | hpDom
    · rcases List.mem_append.mp hp2 with hpA | hpD
      · rcases forall₂_mem_right _ _ _ hfa p hpA with ⟨x, hx, hR⟩
        rw [hplainA] at hx
        rcases List.mem_map.mp hx with ⟨k, _, rfl⟩
        rw [hR.2] at hep
        exact ((mem_get_entities_in_area k entities devices e).mp hep).1
      · rcases forall₂_mem_right _ _ _ hfd p hpD with ⟨x, hx, hR⟩
        rw [hplainD] at hx
        rcases List.mem_map.mp hx with ⟨k, _, rfl⟩
        rw [hR.2] at hep
        have heWA := ((mem_get_entities_for_device k WA e).mp hep).1
        rw [hWA] at heWA
        exact ((mem_entities_without_area areas devices entities e).mp
          heWA).1
    · rw [hdom] at hpDom
      unfold domain_group_pairs at hpDom
      rcases List.mem_map.mp hpDom with ⟨k, _, rfl⟩
      have heOE := ((mem_get_entities_for_domain k
        (other_entities_of areas devices entities) e).mp hep).1
      exact ((mem_other_entities areas devices entities e).mp heOE).1
  · intro p hp
    rw [hgroups] at hp
    have := List.of_mem_filter hp
    simp only [decide_eq_true_eq] at this
    exact List.ne_nil_of_length_pos this

/-- A well-formed one-area, one-device, one-entity snapshot. -/
def c2Areas : List Area := [{ area_id := some "a1", name := some "Kitchen" }]

/-- The device of the C2 witness snapshot. -/
def c2Devices : List Device :=
  [{ id := "d1", area_id := some "a1", name := some "Hub" }]

/-- The entity of the C2 witness snapshot. -/
def c2Entities : List Entity :=
  [{ entity_id := "light.one", area_id := none, device_id := some "d1" }]

/-- The grouping result of the C2 witness snapshot. -/
def c2Groups : List (String × List Entity) :=
  [("Kitchen",
    [{ entity_id := "light.one", area_id := none, device_id := some "d1" }])]

/-- C2, witness: the partition property at a concrete snapshot. -/
theorem split_entities_by_group_partition_witness :
    (∀ e ∈ c2Entities, c2Groups.countP (fun p => decide (e ∈ p.2)) = 1)
    ∧ (∀ p ∈ c2Groups, ∀ e ∈ p.2, e ∈ c2Entities)
    ∧ (∀ p ∈ c2Groups, p.2 ≠ []) :=
  split_entities_by_group_partition c2Areas c2Devices c2Entities
    [("Kitchen",
      [{ entity_id := "light.one", area_id := none, device_id := some "d1" }])]
    [("Hub", [])] c2Groups (by rfl) (by rfl) (by decide) (by rfl) (by decide)
    (by decide) (by decide) (by decide)

/-! ## Claim C1 — which half of a delta event is applied

The claim says that when a delta event carries both a non-empty
additions map and a non-empty changes map, only the additions are
applied.  The source line is `entity_updates = entity_changes or
entity_additions`: a non-empty changes dict is truthy, so it is the
changes that win, and the additions are not applied at all. -/

/-- A delta event carrying both one addition and one change. -/
def bothHalvesEvent : SubscribeEntitiesEvent Nat :=
  { a := some [("light.a", 5)], c := some [("light.b", ⟨some 6⟩)] }

/-- C1, counterexample: on a delta event with non-empty additions and
non-empty changes, the update step applies exactly the changes entries;
the addition for "light.a" is not applied, contradicting the claim that
only the additions are applied. -/
theorem select_entity_updates_additions_dropped_cex :
    bothHalvesEvent.a.getD [] ≠ []
    ∧ bothHalvesEvent.c.getD [] ≠ []
    ∧ select_entity_updates bothHalvesEvent = [("light.b", some 6)]
    ∧ ¬ ∃ p ∈ select_entity_updates bothHalvesEvent, p.1 = "light.a" := by
  refine ⟨by simp [bothHalvesEvent], by simp [bothHalvesEvent], rfl, ?_⟩
  rintro ⟨p, hp, hid⟩
  have hsel : select_entity_updates bothHalvesEvent
      = [("light.b", some 6)] := rfl
  rw [hsel] at hp
  rw [List.mem_singleton.mp hp] at hid
  exact absurd hid (by decide)

/-- C1, amended: whenever the changes map of a delta event is non-empty
— in particular whenever both maps are non-empty — the update step
applies exactly the changes entries for that cycle, and every applied
entity id comes from the changes map; the additions are not separately
applied. -/
theorem select_entity_updates_changes_priority {δ : Type}
    (event : SubscribeEntitiesEvent δ) (hc : event.c.getD [] ≠ []) :
    select_entity_updates event
        = (event.c.getD []).map (fun p => (p.1, p.2.plus))
    ∧ ∀ p ∈ select_entity_updates event,
        p.1 ∈ (event.c.getD []).map Prod.fst := by
  have hne : (((event.c.getD []).map
      (fun p => (p.1, p.2.plus))).isEmpty) = false := by
    cases hcl : event.c.getD [] with
    | nil => exact absurd hcl hc
    | cons q qs => simp
  have hsel : select_entity_updates event
      = (event.c.getD []).map (fun p => (p.1, p.2.plus)) := by
    simp [select_entity_updates, hne]
  refine ⟨hsel, ?_⟩
  intro p hp
  rw [hsel] at hp
  rcases List.mem_map.mp hp with ⟨q, hq, rfl⟩
  exact List.mem_map_of_mem _ hq

/-- C1, witness for the amended theorem at a concrete event. -/
theorem select_entity_updates_changes_priority_witness :
    select_entity_updates bothHalvesEvent = [("light.b", some 6)]
    ∧ ∀ p ∈ select_entity_updates bothHalvesEvent,
        p.1 ∈ (bothHalvesEvent.c.getD []).map Prod.fst :=
  ⟨(select_entity_updates_changes_priority bothHalvesEvent
      (by simp [bothHalvesEvent])).1,
   (select_entity_updates_changes_priority bothHalvesEvent
      (by simp [bothHalvesEvent])).2⟩

/-! ## Claim C3 — lifetime of a pending-command record

The claim says a pending record is destroyed the instant its reply is
routed.  In `handle_response` the removal of the matched record from
`requests_expecting_response_queue` is commented out (marked TODO), so
the record survives the routing of its reply. -/

/-- C3: evaluating the code at the failing input.  With one pending
record of id 1, routing a reply with id 1 invokes the registered
continuation but returns the registry still containing the record with
id 1 — the record is not destroyed. -/
theorem handle_response_retains_pending_record :
    handle_response [({ id := 1, callback := 0 } : PendingCommand Nat)]
        ⟨some 1⟩
      = .ok (some 0, [{ id := 1, callback := 0 }])
    ∧ ∃ p ∈ ([{ id := 1, callback := 0 }] : List (PendingCommand Nat)),
        p.id = 1 :=
  ⟨rfl, ⟨_, List.mem_singleton_self _, rfl⟩⟩

/-! ## Claim C4 — correlation of replies to pending commands -/

/-- C4: (a) with pairwise-distinct pending ids, a reply carrying the id
of a registered record is routed to exactly that record's continuation
(whatever order replies arrive in, each routing step sees some registry
with distinct ids, so this settles arbitrary interleavings); (b) a
reply whose id matches no pending record is dropped: no continuation is
invoked and the registry is returned unmodified; (c) a reply whose id
matches more than one pending record raises the fatal duplicate-id
error.  Ids are the ones the correlator allocates, hence non-zero. -/
theorem handle_response_correlation {κ : Type}
    (queue : List (PendingCommand κ)) (resp : WsResponse) :
    (∀ p ∈ queue, (queue.map PendingCommand.id).Nodup →
       resp.id = some p.id → p.id ≠ 0 →
       handle_response queue resp = .ok (some p.callback, queue))
    ∧ (∀ n, resp.id = some n → n ≠ 0 → (∀ p ∈ queue, p.id ≠ n) →
       handle_response queue resp = .ok (none, queue))
    ∧ (∀ n, resp.id = some n → n ≠ 0 →
       2 ≤ (queue.filter (fun x => x.id == n)).length →
       handle_response queue resp = .error "Too many matching requests?") := by
  refine ⟨?_, ?_, ?_⟩
  · intro p hp hnd hid h0
    have hfil : queue.filter (fun x => x.id == p.id) = [p] :=
      filter_key_self PendingCommand.id queue p hnd hp
    have hb : (p.id == 0) = false := by simpa using h0
    simp [handle_response, hid, hb, hfil]
  · intro n hid h0 hnone
    have hfil : queue.filter (fun x => x.id == n) = [] := by
      apply List.filter_eq_nil_iff.mpr
      intro p hp
      simpa using hnone p hp
    have hb : (n == 0) = false := by simpa using h0
    simp [handle_response, hid, hb, hfil]
  · intro n hid h0 hlen
    have hb : (n == 0) = false := by simpa using h0
    have hgt : (queue.filter (fun x => x.id == n)).length > 1 :=
      lt_of_lt_of_le one_lt_two hlen
    simp [handle_response, hid, hb, hgt]

/-- C4, witness: the three cases at concrete registries. -/
theorem handle_response_correlation_witness :
    handle_response ([⟨1, 10⟩, ⟨2, 20⟩] : List (PendingCommand Nat))
        ⟨some 2⟩ = .ok (some 20, [⟨1, 10⟩, ⟨2, 20⟩])
    ∧ handle_response ([⟨1, 10⟩, ⟨2, 20⟩] : List (PendingCommand Nat))
        ⟨some 3⟩ = .ok (none, [⟨1, 10⟩, ⟨2, 20⟩])
    ∧ handle_response ([⟨1, 10⟩, ⟨1, 20⟩] : List (PendingCommand Nat))
        ⟨some 1⟩ = .error "Too many matching requests?" :=
  ⟨(handle_response_correlation _ _).1 ⟨2, 20⟩ (by decide) (by decide) rfl
     (by decide),
   (handle_response_correlation _ _).2.1 3 rfl (by decide) (by decide),
   (handle_response_correlation _ _).2.2 1 rfl (by decide) (by decide)⟩

/-! ## Claim C9 — the state-display-class mapping and "unknown" -/

/-- C9: the unavailable style tag is returned exactly for the rendered
string "unavailable"; the rendered string "unknown" gets the default
tag "state" (the source's `["unavailable" or "unknown"]` is the
one-element list `["unavailable"]`). -/
theorem get_state_classes_unavailable_exact :
    (∀ s, get_state_classes s = "state state-unavailable" ↔
      s = "unavailable")
    ∧ get_state_classes "unknown" = "state" := by
  refine ⟨fun s => ?_, rfl⟩
  unfold get_state_classes
  by_cases h1 : s = "Press"
  · subst h1; simp
  · rw [if_neg (by simpa using h1)]
    by_cases h2 : s = "unavailable"
    · subst h2; simp
    · rw [if_neg (by simpa using h2)]
      split_ifs <;> simp [h2]

/-- C9, witness at the two interesting rendered strings. -/
theorem get_state_classes_unavailable_exact_witness :
    (get_state_classes "unavailable" = "state state-unavailable")
    ∧ get_state_classes "unknown" = "state" :=
  ⟨(get_state_classes_unavailable_exact.1 "unavailable").mpr rfl,
   get_state_classes_unavailable_exact.2⟩

/-! ## Claim C5 — state rendering rules -/

/-- C5: the ordered rendering rules, first match wins.
(1) An entity of domain `button` or `input_button` renders as "Press"
regardless of every other argument; (2) a raw state "unavailable" is
passed through verbatim for any class/unit arguments; (3) a light that
is "on" with no classes and no unit renders as the toggle-on glyph of
the glyph dictionary; (4) a seconds-valued duration measurement renders
as the humanized duration of its raw value — for raw value "3600" this
is `humanize.naturaldelta` of 3600 seconds, the "1 hour"-class string. -/
theorem render_state_rules (ext : RenderExt) :
    (∀ (entity_id : String) state_raw state_class device_class unit,
       (get_domain_from_entity_id entity_id = "button"
         ∨ get_domain_from_entity_id entity_id = "input_button") →
       render_state ext entity_id state_raw state_class device_class unit
         = .ok "Press")
    ∧ (∀ state_class device_class unit,
       render_state ext "sensor.x" (some "unavailable") state_class
           device_class unit
         = .ok "unavailable")
    ∧ (∀ glyph, ext.nfIcons "nf-fa-toggle_on" = some glyph →
       render_state ext "light.x" (some "on") none none none = .ok glyph)
    ∧ (∀ h, ext.naturaldelta_from_raw "3600" = .ok h →
       render_state ext "sensor.x" (some "3600") (some "measurement")
           (some "duration") (some "s")
         = .ok h) := by
  refine ⟨?_, ?_, ?_, ?_⟩
  · intro entity_id state_raw state_class device_class unit hdom
    rcases hdom with hdom | hdom <;>
      simp [render_state, hdom]
  · intro state_class device_class unit
    simp [render_state, get_domain_from_entity_id, optTruthy,
      (by decide : ("unavailable".isEmpty) = false)]
  · intro glyph hg
    simp [render_state, get_domain_from_entity_id, optTruthy, hg,
      (by decide : ("on".isEmpty) = false)]
  · intro h hh
    simp [render_state, get_domain_from_entity_id, optTruthy, hh,
      (by decide : ("3600".isEmpty) = false)]

/-- A concrete instantiation of the external calls of `render_state`. -/
def sampleRenderExt : RenderExt :=
  { nfIcons := fun k => if k == "nf-fa-toggle_on" then some "X" else none,
    naturaldelta_from_raw := fun _ => .ok "an hour",
    naturaldate_from_raw := fun _ => .error "ValueError",
    intcomma_render := fun _ => none }

/-- C5, witness: the four rules at concrete inputs. -/
theorem render_state_rules_witness :
    render_state sampleRenderExt "button.x" none none none none = .ok "Press"
    ∧ render_state sampleRenderExt "sensor.x" (some "unavailable") none none
        none = .ok "unavailable"
    ∧ render_state sampleRenderExt "light.x" (some "on") none none none
        = .ok "X"
    ∧ render_state sampleRenderExt "sensor.x" (some "3600")
        (some "measurement") (some "duration") (some "s") = .ok "an hour" :=
  ⟨(render_state_rules sampleRenderExt).1 "button.x" none none none none
     (Or.inl rfl),
   (render_state_rules sampleRenderExt).2.1 none none none,
   (render_state_rules sampleRenderExt).2.2.1 "X" rfl,
   (render_state_rules sampleRenderExt).2.2.2 "an hour" rfl⟩

/-! ## Claim C7 — entity filtering -/

/-- C7: membership characterisation of the visibility filter — an
entity is kept iff it has a non-empty entity id, neither `hidden_by`
nor `disabled_by` set, an entity category that is neither "diagnostic"
nor "config", a platform outside {backup, mobile_app}, and a domain in
neither the disabled-domain nor the hidden-domain set; in particular
every entity with entity category "diagnostic" is dropped regardless of
its domain. -/
theorem filter_entities_policy :
    (∀ (entities : List Entity) (e : Entity),
      e ∈ filter_entities entities ↔
        e ∈ entities
        ∧ e.entity_id ≠ ""
        ∧ optTruthy e.hidden_by = false
        ∧ optTruthy e.disabled_by = false
        ∧ e.entity_category ≠ some "diagnostic"
        ∧ e.entity_category ≠ some "config"
        ∧ e.platform ∉ [some "backup", some "mobile_app"]
        ∧ get_domain_from_entity_id e.entity_id ∉ disabled_domains
        ∧ get_domain_from_entity_id e.entity_id ∉ hide_domains)
    ∧ (∀ (entities : List Entity) (e : Entity),
        e.entity_category = some "diagnostic" →
        e ∉ filter_entities entities) := by
  have hmain : ∀ (entities : List Entity) (e : Entity),
      e ∈ filter_entities entities ↔
        e ∈ entities
        ∧ e.entity_id ≠ ""
        ∧ optTruthy e.hidden_by = false
        ∧ optTruthy e.disabled_by = false
        ∧ e.entity_category ≠ some "diagnostic"
        ∧ e.entity_category ≠ some "config"
        ∧ e.platform ∉ [some "backup", some "mobile_app"]
        ∧ get_domain_from_entity_id e.entity_id ∉ disabled_domains
        ∧ get_domain_from_entity_id e.entity_id ∉ hide_domains := by
    intro entities e
    rw [filter_entities, List.mem_filter]
    simp only [Bool.and_eq_true, Bool.not_eq_true']
    constructor
    · rintro ⟨hm, ⟨⟨⟨⟨⟨⟨h1, h2⟩, h3⟩, h4⟩, h5⟩, h6⟩, h7⟩⟩
      have h3' : get_domain_from_entity_id e.entity_id
          ∉ disabled_domains ++ hide_domains := by simpa using h3
      refine ⟨hm, by simpa [string_isEmpty_false_iff] using h7, h1, h2,
        by simpa using h4, by simpa using h5,
        (by simpa using h6 : e.platform ∉ hide_platform.map some),
        fun hmem => h3' (List.mem_append.mpr (Or.inl hmem)),
        fun hmem => h3' (List.mem_append.mpr (Or.inr hmem))⟩
    · rintro ⟨hm, hid, h1, h2, h4, h5, h6, hd1, hd2⟩
      have h3' : get_domain_from_entity_id e.entity_id
          ∉ disabled_domains ++ hide_domains := by
        rw [List.mem_append]
        exact fun hc => hc.elim hd1 hd2
      have h6' : e.platform ∉ hide_platform.map some := h6
      exact ⟨hm, ⟨⟨⟨⟨⟨⟨h1, h2⟩, by simpa using h3'⟩, by simpa using h4⟩,
        by simpa using h5⟩, by simpa using h6'⟩,
        by simpa [string_isEmpty_false_iff] using hid⟩⟩
  refine ⟨hmain, ?_⟩
  intro entities e hdia hmem
  exact ((hmain entities e).mp hmem).2.2.2.2.1 hdia

/-! ## Claim C8 — area membership inherited through the owning device

The claim holds for the intended snapshots, but not universally: the
device must itself carry a name — it is labeled even though its group
ends up empty — and if that name collides with the area's name, the
later device group overwrites the area group in the merged dict and
the entity's group is lost. -/

/-- C8, counterexample: one area, one device in it, one visible entity
owned by the device with a null `area_id` — but the device's display
name equals the area's.  Grouping returns no groups at all instead of
the single area group containing the entity. -/
theorem split_inherited_area_collision_cex :
    filter_entities [{ entity_id := "light.one", device_id := some "d1" }]
      = [{ entity_id := "light.one", device_id := some "d1" }]
    ∧ split_entities_by_group
        [{ area_id := some "a1", name := some "Hub" }]
        [{ id := "d1", area_id := some "a1", name := some "Hub" }]
        [{ entity_id := "light.one", device_id := some "d1" }]
      = .ok [] :=
  ⟨rfl, rfl⟩

/-- C8, amended: for every snapshot of one named area, one named device
with a non-empty id whose `area_id` is the area's id and whose name
differs from the area's name, and one visible entity with null
`area_id` owned by that device, grouping returns the single group
labeled by the area's name containing exactly that entity. -/
theorem split_single_area_device_entity (aid aname did dname eid : String)
    (han : aname ≠ "") (hdn : dname ≠ "") (hnadn : aname ≠ dname)
    (hdid : did ≠ "") (heid : eid ≠ "") :
    split_entities_by_group
      [{ area_id := some aid, name := some aname }]
      [{ id := did, area_id := some aid, name := some dname }]
      [{ entity_id := eid, area_id := none, device_id := some did }]
    = .ok [(aname,
        [{ entity_id := eid, area_id := none, device_id := some did }])] := by
  have heidE : eid.isEmpty = false := (string_isEmpty_false_iff eid).mpr heid
  have hdidE : did.isEmpty = false := (string_isEmpty_false_iff did).mpr hdid
  have hanE : aname.isEmpty = false := (string_isEmpty_false_iff aname).mpr han
  have hdnE : dname.isEmpty = false := (string_isEmpty_false_iff dname).mpr hdn
  have hband : (aname == dname) = false := by simpa using hnadn
  set A : Area := ({ area_id := some aid, name := some aname } : Area)
    with hA
  set D : Device :=
    ({ id := did, area_id := some aid, name := some dname } : Device) with hD
  set E : Entity :=
    ({ entity_id := eid, area_id := none, device_id := some did } : Entity)
    with hE
  have h1 : area_ids_of [A] = [aid] := by simp [area_ids_of, hA]
  have h2 : get_area_of_entity E [D] = some aid := by
    simp [get_area_of_entity, hE, hD, optTruthy_none, hdidE, List.find?]
  have h3 : get_entities_in_area aid [E] [D] = [E] := by
    simp [get_entities_in_area, hE, h2, heidE]
  have h4 : areas_with_entities_of [A] [D] [E] = [(aid, [E])] := by
    simp [areas_with_entities_of, h1, h3, dictOfPairs, dictInsert]
  have h5 : get_area_name_by_area_id aid [A] = .ok aname := by
    simp [get_area_name_by_area_id, hA, List.find?, hanE]
  have h6 : area_groups_named [A] [D] [E] = .ok [(aname, [E])] := by
    simp [area_groups_named, h4, h3, exceptMapList, h5, Except.map]
  have h7 : entity_ids_with_area_of [A] [D] [E] = [eid] := by
    simp [entity_ids_with_area_of, h4, hE]
  have h8 : entities_without_area_of [A] [D] [E] = [] := by
    simp [entities_without_area_of, h7, hE]
  have h9 : devices_with_entities_of [A] [D] [E] = [(did, [])] := by
    simp [devices_with_entities_of, h8, hD, get_entities_for_device,
      dictOfPairs, dictInsert]
  have h10 : get_device_name_from_device_id did [D] = .ok dname := by
    simp [get_device_name_from_device_id, hD, List.find?, hdnE]
  have h11 : device_groups_named [A] [D] [E] = .ok [(dname, [])] := by
    simp [device_groups_named, h9, h8, get_entities_for_device,
      exceptMapList, h10, Except.map]
  have h12 : entity_ids_with_device_of [A] [D] [E] = [] := by
    simp [entity_ids_with_device_of, h9]
  have h13 : other_entity_ids_of [A] [D] [E] = [] := by
    simp [other_entity_ids_of, h8]
  have h14 : domains_of [A] [D] [E] = [] := by
    simp [domains_of, h13, pySetList]
  have h15 : domain_group_pairs [A] [D] [E] = [] := by
    simp [domain_group_pairs, h14]
  have h16 : dictOfPairs [(aname, [E]), (dname, [])]
      = [(aname, [E]), (dname, [])] := by
    simp [dictOfPairs, dictInsert, hband]
  simp [split_entities_by_group, h6, h11, h15, h16]

/-- C8, witness for the amended theorem at concrete names. -/
theorem split_single_area_device_entity_witness :
    split_entities_by_group
      [{ area_id := some "a1", name := some "Kitchen" }]
      [{ id := "d1", area_id := some "a1", name := some "Hub" }]
      [{ entity_id := "light.one", area_id := none, device_id := some "d1" }]
    = .ok [("Kitchen",
        [{ entity_id := "light.one", area_id := none,
           device_id := some "d1" }])] :=
  split_single_area_device_entity "a1" "Kitchen" "d1" "Hub" "light.one"
    (by decide) (by decide) (by decide) (by decide) (by decide)

/-! ## Claim C10 — grouping requires a name for every device

The claim says that any device with a null or missing name makes the
grouping raise.  That is what happens when device ids are distinct —
every device id is labeled by name before empty groups are dropped —
but when two devices share an id, only the first is ever looked up, so
an unnamed duplicate does not raise. -/

/-- Two devices sharing one id; the second has no name. -/
def dupIdDevices : List Device :=
  [{ id := "d", name := some "OK" }, { id := "d", name := none }]

/-- C10, counterexample: a snapshot whose devices list contains a device
with a null name for which grouping nevertheless returns normally,
because an earlier device with the same id supplies the label. -/
theorem split_unnamed_device_no_raise_cex :
    (∃ dev ∈ dupIdDevices, dev.name = none)
    ∧ split_entities_by_group [] dupIdDevices [] = .ok [] := by
  refine ⟨⟨{ id := "d", name := none }, ?_, rfl⟩, rfl⟩
  simp [dupIdDevices]

/-- C10, amended: when device ids are pairwise distinct, grouping
returns normally only if every device has a truthy (non-null,
non-empty) name, and raises whenever some device lacks one — even if no
visible entity belongs to that device, since every device id is labeled
by name before zero-member groups are dropped. -/
theorem split_requires_device_names (areas : List Area)
    (devices : List Device) (entities : List Entity)
    (hdids : (devices.map Device.id).Nodup) :
    (∀ groups, split_entities_by_group areas devices entities = .ok groups →
       ∀ dev ∈ devices, optTruthy dev.name = true)
    ∧ ((∃ dev ∈ devices, optTruthy dev.name = false) →
       ∃ msg, split_entities_by_group areas devices entities = .error msg) := by
  have h1 : ∀ groups,
      split_entities_by_group areas devices entities = .ok groups →
      ∀ dev ∈ devices, optTruthy dev.name = true := by
    intro groups hok dev hdev
    unfold split_entities_by_group at hok
    rcases ha : area_groups_named areas devices entities with e | a
    · rw [ha] at hok; cases hok
    · rw [ha] at hok
      rcases hd : device_groups_named areas devices entities with e | d
      · rw [hd] at hok; cases hok
      · unfold device_groups_named at hd
        have hplain : devices_with_entities_of areas devices entities
            = (devices.map Device.id).map
                (fun k => (k, get_entities_for_device k
                  (entities_without_area_of areas devices entities))) := by
          unfold devices_with_entities_of
          apply dictOfPairs_eq_self
          simpa [List.map_map] using hdids
        have hmem : (dev.id, get_entities_for_device dev.id
              (entities_without_area_of areas devices entities))
            ∈ devices_with_entities_of areas devices entities := by
          rw [hplain]
          exact List.mem_map_of_mem _ (List.mem_map_of_mem Device.id hdev)
        obtain ⟨y, hy⟩ := exceptMapList_ok_of_mem _ _ _ hd _ hmem
        rcases hn : get_device_name_from_device_id dev.id devices with e | n
        · rw [hn] at hy; simp [Except.map] at hy
        · unfold get_device_name_from_device_id at hn
          have hfind : devices.find? (fun x => x.id == dev.id) = some dev :=
            find?_key_self Device.id devices dev hdids hdev
          simp only [hfind] at hn
          cases hname : dev.name with
          | none =>
            simp only [hname] at hn
            exact Except.noConfusion hn
          | some nm =>
            simp only [hname] at hn
            cases hnm : nm.isEmpty with
            | true => simp [hnm] at hn
            | false => simp [optTruthy_some, hnm]
  refine ⟨h1, ?_⟩
  rintro ⟨dev, hdev, hfalse⟩
  cases hs : split_entities_by_group areas devices entities with
  | error e => exact ⟨e, rfl⟩
  | ok groups =>
    have := h1 groups hs dev hdev
    rw [hfalse] at this
    cases this

/-- C10, witness for the amended theorem: with distinct device ids, an
unnamed device makes grouping raise. -/
theorem split_requires_device_names_witness :
    ∃ msg, split_entities_by_group []
        [{ id := "d1", name := some "OK" }, { id := "d2", name := none }] []
      = .error msg :=
  (split_requires_device_names []
      [{ id := "d1", name := some "OK" }, { id := "d2", name := none }] []
      (by decide)).2
    ⟨{ id := "d2", name := none }, by simp, rfl⟩

/-! ## Claim C6 — the icon resolution chain -/

theorem pyOr_chain (a b c : Option String) :
    pyOr (pyOr a b) c
      = if optTruthy a then a else if optTruthy b then b else c := by
  unfold pyOr
  split_ifs <;> simp_all

theorem nf_md_append_isEmpty (x : String) :
    ("nf-md-" ++ x).isEmpty = false := by
  rw [Bool.eq_false_iff]
  intro h
  have h2 : ("nf-md-" ++ x) = "" := (String.isEmpty_iff _).mp h
  have h3 : ("nf-md-" ++ x).data = "".data := congrArg String.data h2
  rw [String.data_append] at h3
  simp at h3

/-- The spec-side translation of a symbolic name: the override-table
key, else the mangled key, looked up in the glyph dictionary. -/
def translate_mdi_name_spec (nf : String → Option String) (s : String) :
    Option String :=
  match (if optTruthy (tableGet mdi_nf_mapping s) then tableGet mdi_nf_mapping s
         else (pyAfterColon s).map
           (fun suf => "nf-md-" ++ suf.replace "-" "_")) with
  | none => none
  | some k => if optTruthy (nf k) then nf k else none

/-- The icon-resolution chain as the specification states it (§4.6):
a symbolic icon name is chosen from (1) the entity's explicit icon
override, else (2) the catalog's default glyph name for the entity's
domain, else (3) the special-case table, in which the `input_datetime`
and `sun` entity-id-prefix cases come before the general domain table;
a step is taken only when the previous step yields nothing (falsy).
The symbolic name is then translated to a glyph-dictionary key by
(a) the explicit override table, else (b) the name-mangling rule: strip
the `mdi:` namespace (nothing to strip is fatal), replace dashes by
underscores, prepend `nf-md-`.  The key is looked up in the glyph
dictionary `nf`; no symbolic name or no truthy glyph for the derived
key yields `none` — the fatal-error outcome, never a blank icon. -/
def resolve_icon_spec (nf : String → Option String) (icons : Icons)
    (entity : Entity) : Option String :=
  let domain_name := get_domain_from_entity_id entity.entity_id
  let symbolic : Option String :=
    if optTruthy entity.icon then entity.icon
    else if optTruthy (get_icon_for_state icons domain_name) then
      get_icon_for_state icons domain_name
    else get_special_case_icon entity.entity_id
  if !optTruthy symbolic then none
  else
    match symbolic with
    | none => none
    | some s => translate_mdi_name_spec nf s

theorem translate_mdi_name_toOption (nf : String → Option String)
    (s : String) :
    (translate_mdi_name nf s).toOption = translate_mdi_name_spec nf s := by
  unfold translate_mdi_name translate_mdi_name_spec
  by_cases ho : optTruthy (tableGet mdi_nf_mapping s) = true
  · rw [if_pos ho, if_pos ho]
    cases ht : tableGet mdi_nf_mapping s with
    | none => rw [ht] at ho; exact absurd ho (by simp [optTruthy_none])
    | some k =>
      rw [ht] at ho
      have hkE : k.isEmpty = false := by simpa [optTruthy_some] using ho
      cases hk : nf k with
      | none => simp [optTruthy_some, optTruthy_none, hkE, hk, Except.toOption]
      | some g =>
        cases hg : g.isEmpty with
        | true =>
          simp [optTruthy_some, hkE, hk, hg, Except.toOption]
        | false =>
          simp [optTruthy_some, hkE, hk, hg, Except.toOption]
  · rw [if_neg ho, if_neg ho]
    unfold mdi_to_nerd_font_name
    cases hc : pyAfterColon s with
    | none => simp [Except.toOption]
    | some suf =>
      simp only [Option.map_some]
      have hne : (("nf-md-" ++ suf.replace "-" "_").isEmpty) = false :=
        nf_md_append_isEmpty _
      by_cases hn : optTruthy (nf ("nf-md-" ++ suf.replace "-" "_")) = true
      · rw [if_pos hn]
        simp only [optTruthy_some, hne, Bool.not_false, Bool.not_true,
          Bool.false_eq_true, if_false]
        cases hk : nf ("nf-md-" ++ suf.replace "-" "_") with
        | none => rw [hk] at hn; exact absurd hn (by simp [optTruthy_none])
        | some g =>
          have hgE : g.isEmpty = false := by
            rw [hk] at hn; simpa [optTruthy_some] using hn
          simp [hk, hgE, optTruthy_some, Except.toOption]
      · rw [if_neg hn]
        simp only [Bool.not_eq_true] at hn
        simp [hn, optTruthy_none, Except.toOption]

theorem translate_mdi_name_ok_ne_blank (nf : String → Option String)
    (s g : String) (hg : translate_mdi_name nf s = .ok g) : g ≠ "" := by
  unfold translate_mdi_name at hg
  rcases hmk : (if optTruthy (tableGet mdi_nf_mapping s) = true then
      Except.ok (tableGet mdi_nf_mapping s)
    else mdi_to_nerd_font_name nf s) with e | nf_name
  · rw [hmk] at hg; cases hg
  · rw [hmk] at hg
    cases nf_name with
    | none => simp [optTruthy_none] at hg
    | some n =>
      cases hn : n.isEmpty with
      | true => simp [optTruthy_some, hn] at hg
      | false =>
        simp only [optTruthy_some, hn, Bool.not_false, Bool.not_true,
          Bool.false_eq_true, if_false] at hg
        cases hk : nf n with
        | none => rw [hk] at hg; cases hg
        | some glyph =>
          rw [hk] at hg
          cases hge : glyph.isEmpty with
          | true => simp [hge] at hg
          | false =>
            simp only [hge, Bool.false_eq_true, if_false, Except.ok.injEq] at hg
            rw [string_isEmpty_false_iff] at hge
            exact hg ▸ hge

/-- C6: the code's icon resolver agrees with the specification's
fallback chain on every input — same glyph on success, failure (a
raised fatal error) exactly when the chain yields nothing — and a
successfully resolved glyph is never the blank string. -/
theorem get_nf_icon_matches_spec (nf : String → Option String)
    (icons : Icons) (entity : Entity) :
    (get_nf_icon_for_entity nf icons entity).toOption
        = resolve_icon_spec nf icons entity
    ∧ (∀ g, get_nf_icon_for_entity nf icons entity = .ok g → g ≠ "") := by
  have hchain := pyOr_chain entity.icon
    (get_icon_for_state icons (get_domain_from_entity_id entity.entity_id))
    (get_special_case_icon entity.entity_id)
  constructor
  · simp only [get_nf_icon_for_entity, resolve_icon_spec, hchain]
    generalize (if optTruthy entity.icon = true then entity.icon
      else if optTruthy (get_icon_for_state icons
          (get_domain_from_entity_id entity.entity_id)) = true then
        get_icon_for_state icons (get_domain_from_entity_id entity.entity_id)
      else get_special_case_icon entity.entity_id) = m
    cases m with
    | none => simp [optTruthy_none, Except.toOption]
    | some s =>
      cases hs : s.isEmpty with
      | true => simp [optTruthy_some, hs, Except.toOption]
      | false =>
        simp only [optTruthy_some, hs, Bool.not_false, Bool.not_true,
          Bool.false_eq_true, if_false]
        exact translate_mdi_name_toOption nf s
  · intro g hg
    simp only [get_nf_icon_for_entity, hchain] at hg
    rcases hm : (if optTruthy entity.icon = true then entity.icon
      else if optTruthy (get_icon_for_state icons
          (get_domain_from_entity_id entity.entity_id)) = true then
        get_icon_for_state icons (get_domain_from_entity_id entity.entity_id)
      else get_special_case_icon entity.entity_id) with _ | s
    · rw [hm] at hg
      simp [optTruthy_none] at hg
    · rw [hm] at hg
      cases hs : s.isEmpty with
      | true => simp [optTruthy_some, hs] at hg
      | false =>
        simp only [optTruthy_some, hs, Bool.not_false, Bool.not_true,
          Bool.false_eq_true, if_false] at hg
        exact translate_mdi_name_ok_ne_blank nf s g hg

/-- A one-domain icon catalog with a default glyph name for lights. -/
def sampleIcons : Icons :=
  [("light", [("_", { default := some "mdi:lightbulb" })])]

/-- A two-key glyph dictionary for the C6 witness. -/
def sampleNf (k : String) : Option String :=
  if k == "nf-md-lightbulb" then some "L"
  else if k == "nf-fa-toggle_on" then some "X" else none

/-- C6, witness: the equality and the non-blank consequence at a
concrete catalog and entity (a light with an explicit icon override
that resolves through the override table). -/
theorem get_nf_icon_matches_spec_witness :
    (get_nf_icon_for_entity sampleNf sampleIcons
        { entity_id := "light.kitchen",
          icon := some "mdi:radiobox-marked" }).toOption
      = resolve_icon_spec sampleNf sampleIcons
          { entity_id := "light.kitchen", icon := some "mdi:radiobox-marked" }
    ∧ "X" ≠ "" :=
  ⟨(get_nf_icon_matches_spec sampleNf sampleIcons
      { entity_id := "light.kitchen",
        icon := some "mdi:radiobox-marked" }).1,
   (get_nf_icon_matches_spec sampleNf sampleIcons
      { entity_id := "light.kitchen",
        icon := some "mdi:radiobox-marked" }).2 "X" (by decide)⟩

/-- C7, witness: a plain sensor is kept, a diagnostic sensor dropped. -/
theorem filter_entities_policy_witness :
    ({ entity_id := "sensor.a" } : Entity)
      ∈ filter_entities [{ entity_id := "sensor.a" }]
    ∧ ({ entity_id := "sensor.b", entity_category := some "diagnostic" }
        : Entity)
      ∉ filter_entities
          [{ entity_id := "sensor.b", entity_category := some "diagnostic" }] :=
  ⟨(filter_entities_policy.1 _ _).mpr (by refine ⟨by simp, ?_, rfl, rfl,
      by simp, by simp, by simp, by decide, by decide⟩; decide),
   filter_entities_policy.2 _ _ rfl⟩

